import Mathlib

/-!
Verification model of the deepgram-transcribe-folder repository.

The repository has two near-identical entry-point variants: `src/index.js`
(CommonJS) and an ESM variant embedded at the end of
`src/src/python/README.md`.  Both share the same pipeline: list the input
directory, keep entries starting with the limiter string, map each entry to
`inDir + entry`, partition the resulting paths by their character at index 6
into four pre-seeded buckets "0".."3", dispatch a transcription per file, and
save each (name, transcript) record to `out/<stem>.md`.

Each definition below is a shallow embedding of one source construct; the doc
comment names the construct it embeds.
-/

namespace TranscribeFolder

/-- Embeds JS `x.startsWith(limiter)`: the limiter's character sequence is an
initial segment of x's character sequence (case-sensitive, whole-prefix). -/
def jsStartsWith (x limiter : String) : Bool :=
  limiter.data.isPrefixOf x.data

/-- Embeds the File Selector of index.js:
`files.filter(x => x.startsWith(limiter)).map(x => inDir + x)`
(the template literal is plain string concatenation; `inDir` ends in a slash). -/
def filteredFiles (inDir limiter : String) (files : List String) : List String :=
  (files.filter (fun x => jsStartsWith x limiter)).map (fun x => inDir ++ x)

/-- The four pre-seeded buckets of the grouping accumulator
`{"0":[], "1":[], "2":[], "3":[]}` in index.js. A JS object with exactly
these four keys is embedded as a structure with four list fields. -/
structure Batches where
  b0 : List String
  b1 : List String
  b2 : List String
  b3 : List String
deriving DecidableEq

/-- The message of the TypeError raised by `agg[cur[6]].push(cur)` when
`agg[cur[6]]` is undefined (grouping character missing or outside the four
pre-seeded keys). -/
def pushTypeError : String :=
  "TypeError: Cannot read properties of undefined (reading push)"

/-- Embeds `toGroupBy7thChar = (agg, cur) => { agg[cur[6]].push(cur); return agg; }`
from index.js.  `cur[6]` is the character of the string `cur` at index 6
(undefined when `cur` is shorter); looking up a key other than the four
pre-seeded ones yields undefined, and `.push` on undefined throws a TypeError,
embedded as `Except.error`.  Note `cur` ranges over elements of
`filteredFiles`, i.e. full paths, not bare entry names. -/
def toGroupBy7thChar (agg : Batches) (cur : String) : Except String Batches :=
  match cur.data.get? 6 with
  | none => Except.error pushTypeError
  | some c =>
    if c = '0' then Except.ok ⟨agg.b0 ++ [cur], agg.b1, agg.b2, agg.b3⟩
    else if c = '1' then Except.ok ⟨agg.b0, agg.b1 ++ [cur], agg.b2, agg.b3⟩
    else if c = '2' then Except.ok ⟨agg.b0, agg.b1, agg.b2 ++ [cur], agg.b3⟩
    else if c = '3' then Except.ok ⟨agg.b0, agg.b1, agg.b2, agg.b3 ++ [cur]⟩
    else Except.error pushTypeError

/-- Left fold of `toGroupBy7thChar` over the file list, propagating the thrown
TypeError exactly as `Array.prototype.reduce` propagates an exception from its
callback (processing stops at the first throw). -/
def runPartition (agg : Batches) : List String → Except String Batches
  | [] => Except.ok agg
  | cur :: rest =>
    match toGroupBy7thChar agg cur with
    | Except.error e => Except.error e
    | Except.ok agg2 => runPartition agg2 rest

/-- Embeds `const batches = filteredFiles.reduce(toGroupBy7thChar, {"0":[], "1":[], "2":[], "3":[]})`
from index.js, applied to an arbitrary already-filtered path list. -/
def batchesOf (files : List String) : Except String Batches :=
  runPartition ⟨[], [], [], []⟩ files

/-- True when the string's character at index 6 is one of the four pre-seeded
bucket keys, i.e. when `toGroupBy7thChar` does not throw on it. -/
def goodKey7 (s : String) : Bool :=
  match s.data.get? 6 with
  | none => false
  | some c => c == '0' || c == '1' || c == '2' || c == '3'

/-- Whether the partition step completes without throwing. -/
def partitionSucceeds (files : List String) : Bool :=
  match batchesOf files with
  | Except.ok _ => true
  | Except.error _ => false

/-- The files `cur` of a bucket, in input order: exactly those whose character
at index 6 equals the bucket key `c`.  Used to state what `batchesOf`
computes. -/
def bucketFilter (c : Char) (l : List String) : List String :=
  l.filter (fun s => s.data.get? 6 == some c)

/-- A JS value that was thrown and may carry a `message` property; `message`
is `none` when the thrown value has no such property (e.g. a thrown string or
plain object), modelling that `ex.message` then evaluates to undefined. -/
structure JSError where
  message : Option String
deriving DecidableEq

/-- A thrown JS value as seen by a catch handler: either a null/undefined
value (on which any property access itself throws) or a value carrying an
optional `message` property. -/
inductive Thrown where
  | nullish : Thrown
  | value : JSError → Thrown
deriving DecidableEq

/-- One alternative of the Deepgram response; `transcript` is `none` when the
`transcript` property is absent (property access then yields undefined
without throwing). -/
structure DGAlternative where
  transcript : Option String
deriving DecidableEq

/-- One channel of the Deepgram response; `alternatives` is `none` when that
property is absent. -/
structure DGChannel where
  alternatives : Option (List DGAlternative)
deriving DecidableEq

/-- The `results` object of the Deepgram response; `channels` is `none` when
that property is absent. -/
structure DGResults where
  channels : Option (List DGChannel)
deriving DecidableEq

/-- The `result` object returned by the SDK call; `results` is `none` when
that property is absent. -/
structure DGResponse where
  results : Option DGResults
deriving DecidableEq

/-- What awaiting `transcriptionClient.listen.prerecorded.transcribeFile(...)`
can do: reject (throw) with some JS value, or resolve to a
`{ result, error }` pair where a present `error` field is a truthy error
value. -/
inductive ClientReply where
  | thrown : Thrown → ClientReply
  | reply : Option DGResponse → Option JSError → ClientReply
deriving DecidableEq

/-- The message of the TypeError thrown by
`result.results.channels[0].alternatives[0].transcript` when an intermediate
value in the chain is undefined. -/
def accessTypeError : JSError :=
  ⟨some "TypeError: Cannot read properties of undefined"⟩

/-- The message of the TypeError thrown by `ex.message` inside the catch
block when the caught value `ex` is itself null or undefined. -/
def nullMessageTypeError : JSError :=
  ⟨some "TypeError: Cannot read properties of null (reading message)"⟩

/-- Embeds the access chain
`result.results.channels[0].alternatives[0].transcript` of index.js.  Each
undefined intermediate value makes the property access throw a TypeError; a
present final alternative whose `transcript` property is absent yields
undefined without throwing. -/
def extractTranscript : Option DGResponse → Except JSError (Option String)
  | none => Except.error accessTypeError
  | some r =>
    match r.results with
    | none => Except.error accessTypeError
    | some rs =>
      match rs.channels with
      | none => Except.error accessTypeError
      | some chs =>
        match chs.get? 0 with
        | none => Except.error accessTypeError
        | some ch =>
          match ch.alternatives with
          | none => Except.error accessTypeError
          | some alts =>
            match alts.get? 0 with
            | none => Except.error accessTypeError
            | some alt => Except.ok alt.transcript

/-- What the async adapter's returned promise does: resolve with a JS value
(`none` models resolving with undefined) or reject with a thrown value. -/
inductive AdapterResult where
  | resolved : Option String → AdapterResult
  | rejected : Thrown → AdapterResult
deriving DecidableEq

/-- True exactly on the resolved outcomes. -/
def AdapterResult.isResolved : AdapterResult → Bool
  | AdapterResult.resolved _ => true
  | AdapterResult.rejected _ => false

/-- True exactly on the rejected outcomes. -/
def AdapterResult.isRejected : AdapterResult → Bool
  | AdapterResult.resolved _ => false
  | AdapterResult.rejected _ => true

/-- Embeds the catch block `catch (ex) { return ex.message; }` of
`transcribeContentWithTool`: on a null/undefined caught value, `ex.message`
itself throws a fresh TypeError, which rejects the async function's promise;
otherwise the function resolves with the caught value's `message` property
(undefined when absent). -/
def catchReturnMessage : Thrown → AdapterResult
  | Thrown.nullish => AdapterResult.rejected (Thrown.value nullMessageTypeError)
  | Thrown.value e => AdapterResult.resolved e.message

/-- Embeds `transcribeContentWithTool = (readContentSync, transcriptionClient) => async (fileName) => ...`
of index.js: read the file (a throwing read is caught), await the client call
(a rejection is caught), `if (error) throw error` (caught), then extract the
transcript from the response (a TypeError from the access chain is caught).
The catch block returns `ex.message`. -/
def transcribeContentWithTool (readContentSync : String → Except Thrown String)
    (transcriptionClient : String → ClientReply) (fileName : String) : AdapterResult :=
  match readContentSync fileName with
  | Except.error t => catchReturnMessage t
  | Except.ok content =>
    match transcriptionClient content with
    | ClientReply.thrown t => catchReturnMessage t
    | ClientReply.reply result err =>
      match err with
      | some e => catchReturnMessage (Thrown.value e)
      | none =>
        match extractTranscript result with
        | Except.error e => catchReturnMessage (Thrown.value e)
        | Except.ok t => AdapterResult.resolved t

/-- The constant `const outDir = "out"` of index.js. -/
def outDir : String := "out"

/-- The base name of a path: the component after the last slash, as Node's
`path.parse` computes it for the forward-slash paths this program builds. -/
def basenameOf (p : String) : String :=
  (p.splitOn "/").getLastD ""

/-- Index of the last dot in a character list, if any. -/
def lastDotIndex (l : List Char) : Option Nat :=
  (List.range l.length).foldl
    (fun acc i => if l.get? i = some '.' then some i else acc) none

/-- Embeds `path.parse(name).name`: the base name with its extension removed,
where the extension starts at the last dot unless that dot is the first
character of the base name (so ".bashrc" keeps its name). -/
def stemOf (p : String) : String :=
  let base := basenameOf p
  match lastDotIndex base.data with
  | none => base
  | some 0 => base
  | some i => String.mk (base.data.take i)

/-- Embeds `path.join(outDir, outName)` for the simple relative segments this
program passes: the two segments joined by one slash. -/
def pathJoin (a b : String) : String := a ++ "/" ++ b

/-- Embeds the body of `saveTo` (ESM variant
`saveTo = (writeContentSync) => async (input) => ...`): destructure
`{name, transcript}`, form `out/<stem(name)>.md`, await the transcript and
hand (path, contents) to the injected write.  The write effect is embedded as
the returned (path, contents) pair. -/
def saveTo (input : String × String) : String × String :=
  let justName := stemOf input.1
  let outName := justName ++ ".md"
  let outPath := pathJoin outDir outName
  (outPath, input.2)

/-- Effect of one `fs.writeFileSync(outPath, contents)` on a file system
modelled as a map from path to contents: the file at that path is replaced
(created or overwritten) by the written contents. -/
def applyWrite (fsys : String → Option String) (w : String × String) : String → Option String :=
  fun q => if q = w.1 then some w.2 else fsys q

/-- Embeds `const transcripts = filteredFiles.map(transcribeFileWithDeepgram)`
with the per-file promise outcome abstracted as a function from file name to
the full adapter result: resolved with a string (a transcript on success, the
captured error message on failure), resolved with undefined (a messageless
thrown value, see the C9 theorem), or rejected (a nullish thrown value, see
the C4 counterexample). -/
def transcriptPromises (transcribe : String → AdapterResult) (files : List String) :
    List AdapterResult :=
  files.map transcribe

/-- Embeds `filteredFiles.map(function(name, i) { return {name, transcript: transcripts[i]}; })`.
Since `ts` is produced by mapping over the same list, the index access
`transcripts[i]` pairs the i-th name with the i-th transcript promise, which
is the zip of the two lists. -/
def namesAndTranscripts {α : Type} (files : List String) (ts : List α) : List (String × α) :=
  files.zip ts

/-- Effect of `writeFileSync(outPath, contents)` inside one `saveToDisk`
invocation whose record's promise resolved with `v`: when `v` is a string,
the record's file is written; when `v` is undefined, `writeFileSync` throws a
TypeError inside that record's own async save, so that record produces no
write (siblings are unaffected — nothing awaits the save's promise). -/
def saveToDiskWrite (input : String × Option String) : Option (String × String) :=
  match input.2 with
  | some s => some (saveTo (input.1, s))
  | none => none

/-- One record of `namesAndTranscripts.map(saveToDisk)` after the run's
`await Promise.all`: a resolved record is saved via `saveToDiskWrite`; a
rejected transcript is unreachable here (the preceding await already threw),
embedded as producing no write. -/
def saveResolvedRecord (r : String × AdapterResult) : Option (String × String) :=
  match r.2 with
  | AdapterResult.resolved v => saveToDiskWrite (r.1, v)
  | AdapterResult.rejected _ => none

/-- Embeds the run tail of the ESM variant:
`await Promise.all(transcripts); const namesAndTranscripts = ...; namesAndTranscripts.map(saveToDisk)`.
If any transcription promise rejected, the top-level await throws and module
evaluation aborts before any save — no write happens at all.  Otherwise each
record is saved; a record that resolved with undefined throws inside its own
save and yields no document.  The result is the ordered list of
(output path, contents) writes the run performs. -/
def runWrites (transcribe : String → AdapterResult) (files : List String) :
    List (String × String) :=
  if (transcriptPromises transcribe files).any AdapterResult.isRejected then []
  else (namesAndTranscripts files (transcriptPromises transcribe files)).filterMap
    saveResolvedRecord

/-- Timing model of the batch loop of src/index.js.  `rt f` is the abstract
time at which file `f`'s transcription promise settles.  The loop runs
`Promise.all(batchTranscripts);` WITHOUT awaiting it and immediately invokes
`namesAndTranscripts.map(saveToDisk)`; each `saveToDisk` awaits only its own
record's promise (`const contents = await transcript`), so the write for
file `f` begins exactly when `f`'s own promise settles. -/
def writeBeginTime (rt : String → Nat) (f : String) : Nat := rt f

/-- The time by which every transcription dispatched for the group has
settled: the maximum of the group's resolve times. -/
def allResolvedTime (rt : String → Nat) (g : List String) : Nat :=
  g.foldr (fun f m => max (rt f) m) 0

/-- Timing model of the dispatch `filteredFiles.map(transcribeFileWithDeepgram)`:
every file's call starts at time 0 (`map` invokes the async function for each
element before anything is awaited), and the call for `f` is unresolved at
time `t` exactly when `t < rt f`.  There is no semaphore or worker pool in
the source, so the number in flight at time `t` is just the count of files
whose call has not yet settled. -/
def inFlightCount (rt : String → Nat) (files : List String) (t : Nat) : Nat :=
  (files.filter (fun f => t < rt f)).length

/-- A concrete work group for the timing model: two files of bucket "0". -/
def batchEx : List String := ["./in/20250801_a.wav", "./in/20250801_b.wav"]

/-- Concrete resolve times for `batchEx`: the first file's transcription
settles at time 2, the second at time 1. -/
def rtEx : String → Nat := fun s => if s = "./in/20250801_a.wav" then 2 else 1

/-- Five dispatched files for the concurrency model. -/
def fiveFiles : List String :=
  ["./in/20250801_a.wav", "./in/20250801_b.wav", "./in/20250801_c.wav",
   "./in/20250801_d.wav", "./in/20250801_e.wav"]

/-- Two dispatched files for the run-output model. -/
def c5files : List String := ["./in/20250801_a.wav", "./in/20250801_b.wav"]

/-- A run in which the first file's transcription resolves with a transcript
and the second resolves with undefined (the outcome the adapter produces when
the provider throws a messageless value — see the C9 theorem). -/
def c5MixedTranscribe : String → AdapterResult := fun f =>
  if f = "./in/20250801_a.wav" then AdapterResult.resolved (some "hello world")
  else AdapterResult.resolved none

/-- A run in which the first file's transcription promise rejects (the
outcome the adapter produces when the provider throws a nullish value — see
the C4 counterexample) and the second resolves with a transcript. -/
def c5RejectTranscribe : String → AdapterResult := fun f =>
  if f = "./in/20250801_a.wav" then AdapterResult.rejected Thrown.nullish
  else AdapterResult.resolved (some "hello world")

/-- Per-file string outcomes for a run with no error-path outcome: the first
file succeeds, the second fails with a captured provider message (still a
string, still written). -/
def c5Outcome : String → String := fun f =>
  if f = "./in/20250801_b.wav" then "credentials are invalid" else "hello world"

/-- A run in which every transcription resolves with the string `c5Outcome`
gives for the file. -/
def c5AllStrings : String → AdapterResult := fun f =>
  AdapterResult.resolved (some (c5Outcome f))

theorem goodKey7_eq_true {s : String} (h : goodKey7 s = true) :
    ∃ c, s.data.get? 6 = some c ∧ (c = '0' ∨ c = '1' ∨ c = '2' ∨ c = '3') := by
  unfold goodKey7 at h
  cases hg : s.data.get? 6 with
  | none => rw [hg] at h; cases h
  | some c =>
    rw [hg] at h
    refine ⟨c, rfl, ?_⟩
    simp only [Bool.or_eq_true, beq_iff_eq] at h
    tauto

theorem toGroup_error_of_badKey (agg : Batches) {cur : String}
    (h : goodKey7 cur = false) :
    toGroupBy7thChar agg cur = Except.error pushTypeError := by
  unfold goodKey7 at h
  unfold toGroupBy7thChar
  cases hg : cur.data.get? 6 with
  | none => rfl
  | some c =>
    rw [hg] at h
    simp only [Bool.or_eq_false_iff, beq_eq_false_iff_ne, ne_eq] at h
    obtain ⟨⟨⟨h0, h1⟩, h2⟩, h3⟩ := h
    simp [h0, h1, h2, h3]

theorem toGroup_step0 (agg : Batches) {cur : String}
    (hg : cur.data.get? 6 = some '0') :
    toGroupBy7thChar agg cur = Except.ok ⟨agg.b0 ++ [cur], agg.b1, agg.b2, agg.b3⟩ := by
  unfold toGroupBy7thChar
  rw [hg]
  rfl

theorem toGroup_step1 (agg : Batches) {cur : String}
    (hg : cur.data.get? 6 = some '1') :
    toGroupBy7thChar agg cur = Except.ok ⟨agg.b0, agg.b1 ++ [cur], agg.b2, agg.b3⟩ := by
  unfold toGroupBy7thChar
  rw [hg]
  rfl

theorem toGroup_step2 (agg : Batches) {cur : String}
    (hg : cur.data.get? 6 = some '2') :
    toGroupBy7thChar agg cur = Except.ok ⟨agg.b0, agg.b1, agg.b2 ++ [cur], agg.b3⟩ := by
  unfold toGroupBy7thChar
  rw [hg]
  rfl

theorem toGroup_step3 (agg : Batches) {cur : String}
    (hg : cur.data.get? 6 = some '3') :
    toGroupBy7thChar agg cur = Except.ok ⟨agg.b0, agg.b1, agg.b2, agg.b3 ++ [cur]⟩ := by
  unfold toGroupBy7thChar
  rw [hg]
  rfl

theorem bucketFilter_cons_self (c : Char) {cur : String} (t : List String)
    (hg : cur.data.get? 6 = some c) :
    bucketFilter c (cur :: t) = cur :: bucketFilter c t := by
  simp [bucketFilter, List.filter_cons, ← List.get?_eq_getElem?, hg]

theorem bucketFilter_cons_ne {c c2 : Char} {cur : String} (t : List String)
    (hg : cur.data.get? 6 = some c2) (hne : c2 ≠ c) :
    bucketFilter c (cur :: t) = bucketFilter c t := by
  simp [bucketFilter, List.filter_cons, ← List.get?_eq_getElem?, hg, hne]

theorem runPartition_cons_ok {agg agg2 : Batches} {cur : String} (t : List String)
    (h : toGroupBy7thChar agg cur = Except.ok agg2) :
    runPartition agg (cur :: t) = runPartition agg2 t := by
  rw [runPartition, h]

theorem runPartition_cons_error {agg : Batches} {cur : String} {e : String}
    (t : List String) (h : toGroupBy7thChar agg cur = Except.error e) :
    runPartition agg (cur :: t) = Except.error e := by
  rw [runPartition, h]

theorem runPartition_ok : (l : List String) → (agg : Batches) →
    (∀ cur, cur ∈ l → goodKey7 cur = true) →
    runPartition agg l = Except.ok
      ⟨agg.b0 ++ bucketFilter '0' l, agg.b1 ++ bucketFilter '1' l,
       agg.b2 ++ bucketFilter '2' l, agg.b3 ++ bucketFilter '3' l⟩ := by
  intro l
  induction l with
  | nil =>
    intro agg h
    simp [runPartition, bucketFilter]
  | cons cur t ih =>
    intro agg h
    obtain ⟨c, hg, hc⟩ := goodKey7_eq_true (h cur (List.mem_cons_self cur t))
    have ht : ∀ x, x ∈ t → goodKey7 x = true :=
      fun x hx => h x (List.mem_cons_of_mem _ hx)
    rcases hc with hc | hc | hc | hc <;> subst hc
    · rw [runPartition_cons_ok t (toGroup_step0 agg hg), ih _ ht,
        bucketFilter_cons_self _ t hg,
        bucketFilter_cons_ne t hg (by decide),
        bucketFilter_cons_ne t hg (by decide),
        bucketFilter_cons_ne t hg (by decide)]
      simp
    · rw [runPartition_cons_ok t (toGroup_step1 agg hg), ih _ ht,
        bucketFilter_cons_self _ t hg,
        bucketFilter_cons_ne t hg (by decide),
        bucketFilter_cons_ne t hg (by decide),
        bucketFilter_cons_ne t hg (by decide)]
      simp
    · rw [runPartition_cons_ok t (toGroup_step2 agg hg), ih _ ht,
        bucketFilter_cons_self _ t hg,
        bucketFilter_cons_ne t hg (by decide),
        bucketFilter_cons_ne t hg (by decide),
        bucketFilter_cons_ne t hg (by decide)]
      simp
    · rw [runPartition_cons_ok t (toGroup_step3 agg hg), ih _ ht,
        bucketFilter_cons_self _ t hg,
        bucketFilter_cons_ne t hg (by decide),
        bucketFilter_cons_ne t hg (by decide),
        bucketFilter_cons_ne t hg (by decide)]
      simp

theorem runPartition_error : (l : List String) → (agg : Batches) →
    (∃ cur, cur ∈ l ∧ goodKey7 cur = false) →
    runPartition agg l = Except.error pushTypeError := by
  intro l
  induction l with
  | nil =>
    intro agg h
    obtain ⟨cur, hmem, _⟩ := h
    cases hmem
  | cons a t ih =>
    intro agg h
    obtain ⟨cur, hmem, hbad⟩ := h
    cases hga : goodKey7 a with
    | false =>
      rw [runPartition_cons_error t (toGroup_error_of_badKey agg hga)]
    | true =>
      have hcur : cur ∈ t := by
        rcases List.mem_cons.mp hmem with heq | hmemt
        · subst heq; rw [hga] at hbad; cases hbad
        · exact hmemt
      obtain ⟨c, hg, hc⟩ := goodKey7_eq_true hga
      rcases hc with hc | hc | hc | hc <;> subst hc
      · rw [runPartition_cons_ok t (toGroup_step0 agg hg)]; exact ih _ ⟨cur, hcur, hbad⟩
      · rw [runPartition_cons_ok t (toGroup_step1 agg hg)]; exact ih _ ⟨cur, hcur, hbad⟩
      · rw [runPartition_cons_ok t (toGroup_step2 agg hg)]; exact ih _ ⟨cur, hcur, hbad⟩
      · rw [runPartition_cons_ok t (toGroup_step3 agg hg)]; exact ih _ ⟨cur, hcur, hbad⟩

theorem bucket_length_sum : (l : List String) →
    (∀ cur, cur ∈ l → goodKey7 cur = true) →
    (bucketFilter '0' l).length + (bucketFilter '1' l).length +
      (bucketFilter '2' l).length + (bucketFilter '3' l).length = l.length := by
  intro l
  induction l with
  | nil => intro h; rfl
  | cons cur t ih =>
    intro h
    obtain ⟨c, hg, hc⟩ := goodKey7_eq_true (h cur (List.mem_cons_self cur t))
    have iht := ih (fun x hx => h x (List.mem_cons_of_mem _ hx))
    rcases hc with hc | hc | hc | hc <;> subst hc
    · rw [bucketFilter_cons_self _ t hg,
        bucketFilter_cons_ne t hg (by decide),
        bucketFilter_cons_ne t hg (by decide),
        bucketFilter_cons_ne t hg (by decide)]
      simp only [List.length_cons]
      omega
    · rw [bucketFilter_cons_self _ t hg,
        bucketFilter_cons_ne t hg (by decide),
        bucketFilter_cons_ne t hg (by decide),
        bucketFilter_cons_ne t hg (by decide)]
      simp only [List.length_cons]
      omega
    · rw [bucketFilter_cons_self _ t hg,
        bucketFilter_cons_ne t hg (by decide),
        bucketFilter_cons_ne t hg (by decide),
        bucketFilter_cons_ne t hg (by decide)]
      simp only [List.length_cons]
      omega
    · rw [bucketFilter_cons_self _ t hg,
        bucketFilter_cons_ne t hg (by decide),
        bucketFilter_cons_ne t hg (by decide),
        bucketFilter_cons_ne t hg (by decide)]
      simp only [List.length_cons]
      omega

theorem zip_self_map {α β : Type} (g : α → β) (l : List α) :
    l.zip (l.map g) = l.map (fun a => (a, g a)) := by
  induction l with
  | nil => rfl
  | cons a t ih => simp [List.zip_cons_cons, ih]

/-- C1: the claim states that no Result Writer write for a file in a work
group begins until every transcription call dispatched for that group has
resolved.  The batch loop of src/index.js discards the `Promise.all` value
without awaiting it and invokes `saveToDisk` immediately; each write begins as
soon as its own record's promise settles.  In the group `batchEx` with resolve
times `rtEx`, the write for the second file begins at time 1, while the first
file's call is still unresolved (it settles at time 2), so a write begins
before the group has fully resolved — the source exhibits the fire-and-forget
bug the design forbids. -/
theorem c1_write_begins_before_group_resolved :
    "./in/20250801_b.wav" ∈ batchEx ∧ "./in/20250801_a.wav" ∈ batchEx ∧
    writeBeginTime rtEx "./in/20250801_b.wav" < rtEx "./in/20250801_a.wav" ∧
    writeBeginTime rtEx "./in/20250801_b.wav" < allResolvedTime rtEx batchEx := by
  refine ⟨?_, ?_, ?_, ?_⟩
  · simp [batchEx]
  · simp [batchEx]
  · decide
  · decide

/-- C2: the claim states that each selected file is assigned to the bucket
whose key equals the character at index 6 of the FILENAME.  The code maps
each entry to the full path `"./in/" + name` before partitioning and then
indexes `cur[6]`, which is character 1 of the filename.  Evaluating the code
on the directory entry "20250811_a.wav": its filename character at index 6 is
'1', yet the file lands in bucket "0" (and bucket "1" stays empty). -/
theorem c2_partition_keys_off_path_not_filename :
    batchesOf (filteredFiles "./in/" "2025" ["20250811_a.wav"]) =
      Except.ok ⟨["./in/20250811_a.wav"], [], [], []⟩ ∧
    ("20250811_a.wav").data.get? 6 = some '1' ∧ ('1' : Char) ≠ '0' :=
  ⟨rfl, rfl, by decide⟩

/-- C3 counterexample: the claim bounds the number of simultaneously
unresolved transcription calls by the configured maximum (default 4).  The
source has no limiter: `filteredFiles.map(transcribeFileWithDeepgram)` starts
every call before anything is awaited, so with five dispatched files and no
call yet settled, five calls are in flight at time 0. -/
theorem c3_five_calls_in_flight :
    4 < inFlightCount (fun _ => 1) fiveFiles 0 := by decide

/-- C3 amended: the only bound the code guarantees is the trivial one — at
any time the number of dispatched-but-unresolved transcription calls is at
most the number of dispatched files, since every call is started by the
single `map` and nothing else creates calls. -/
theorem c3_in_flight_at_most_file_count (rt : String → Nat) (files : List String)
    (t : Nat) : inFlightCount rt files t ≤ files.length :=
  List.length_filter_le _ _

/-- C4 counterexample: the claim states the adapter's promise never rejects.
If the provider call rejects with a null (or undefined) value, the catch
block's own `ex.message` access throws a fresh TypeError, so the adapter's
promise rejects after all. -/
theorem c4_null_throw_rejects :
    transcribeContentWithTool (fun _ => Except.ok "bytes")
      (fun _ => ClientReply.thrown Thrown.nullish) "f.wav" =
      AdapterResult.rejected (Thrown.value nullMessageTypeError) := rfl

/-- C4 amended: provided every value thrown across the adapter's boundary
(by the read, the provider call, or the provider's error field) is a
non-null value, the adapter's promise always resolves: every error path
returns the caught value's `message` property (a human-readable TypeError
message for malformed responses, though possibly undefined when a thrown
provider value lacks a message — see the C9 theorem). -/
theorem c4_resolves_when_thrown_values_are_objects
    (readContentSync : String → Except Thrown String)
    (transcriptionClient : String → ClientReply) (fileName : String)
    (hr : readContentSync fileName ≠ Except.error Thrown.nullish)
    (hc : ∀ content, transcriptionClient content ≠ ClientReply.thrown Thrown.nullish) :
    (transcribeContentWithTool readContentSync transcriptionClient fileName).isResolved
      = true := by
  cases hread : readContentSync fileName with
  | error t =>
    cases t with
    | nullish => exact absurd hread hr
    | value e =>
      simp [transcribeContentWithTool, hread, catchReturnMessage,
        AdapterResult.isResolved]
  | ok content =>
    cases hcl : transcriptionClient content with
    | thrown t =>
      cases t with
      | nullish => exact absurd hcl (hc content)
      | value e =>
        simp [transcribeContentWithTool, hread, hcl, catchReturnMessage,
          AdapterResult.isResolved]
    | reply result err =>
      cases err with
      | some e =>
        simp [transcribeContentWithTool, hread, hcl, catchReturnMessage,
          AdapterResult.isResolved]
      | none =>
        cases hex : extractTranscript result with
        | error e =>
          simp [transcribeContentWithTool, hread, hcl, hex, catchReturnMessage,
            AdapterResult.isResolved]
        | ok t =>
          simp [transcribeContentWithTool, hread, hcl, hex,
            AdapterResult.isResolved]

/-- Witness for the amended C4 theorem, at a reader that returns bytes and a
provider that resolves with a malformed (empty) response. -/
theorem c4_witness :
    (transcribeContentWithTool (fun _ => Except.ok "bytes")
      (fun _ => ClientReply.reply none none) "f.wav").isResolved = true :=
  c4_resolves_when_thrown_values_are_objects _ _ "f.wav" (by simp)
    (fun content => by simp)

theorem saveResolvedRecord_filterMap (transcribe : String → AdapterResult)
    (outcome : String → String) : (files : List String) →
    (∀ f, f ∈ files → transcribe f = AdapterResult.resolved (some (outcome f))) →
    files.filterMap (fun a => saveResolvedRecord (a, transcribe a)) =
      files.map (fun f => (pathJoin outDir (stemOf f ++ ".md"), outcome f)) := by
  intro files
  induction files with
  | nil => intro h; rfl
  | cons a t ih =>
    intro h
    have hsa : saveResolvedRecord (a, transcribe a) =
        some (pathJoin outDir (stemOf a ++ ".md"), outcome a) := by
      simp [saveResolvedRecord, h a (List.mem_cons_self a t), saveToDiskWrite, saveTo]
    simp only [List.filterMap_cons, hsa]
    rw [ih (fun f hf => h f (List.mem_cons_of_mem _ hf))]
    rfl

/-- C5 counterexample: the claim states that every run writes exactly one
output document per dispatched file, even when some transcriptions fail.
Two runs over the same two dispatched files refute this: when one
transcription resolves with undefined (the C9 outcome), its
`writeFileSync(outPath, undefined)` throws and that record yields no
document (1 write for 2 files); when one transcription promise rejects (the
C4 nullish-throw outcome), the run's `await Promise.all` throws before any
save and no document is written at all (0 writes for 2 files). -/
theorem c5_fewer_writes_on_error_paths :
    c5files.length = 2 ∧
    (runWrites c5MixedTranscribe c5files).length = 1 ∧
    runWrites c5RejectTranscribe c5files = [] :=
  ⟨rfl, rfl, rfl⟩

/-- C5 amended: provided every dispatched transcription resolves with a
string value — which covers provider failures captured as message strings,
but excludes rejected promises and undefined resolutions — the run writes
exactly one output document per dispatched file, in order: the write list is
the file list mapped to (out/<stem>.md, resolved contents). -/
theorem c5_one_write_per_file_when_all_resolve_strings
    (transcribe : String → AdapterResult) (outcome : String → String)
    (files : List String)
    (h : ∀ f, f ∈ files → transcribe f = AdapterResult.resolved (some (outcome f))) :
    (runWrites transcribe files).length = files.length ∧
    runWrites transcribe files =
      files.map (fun f => (pathJoin outDir (stemOf f ++ ".md"), outcome f)) := by
  have hno : (transcriptPromises transcribe files).any AdapterResult.isRejected = false := by
    rw [transcriptPromises, List.any_eq_false]
    intro x hx
    obtain ⟨f, hf, hfx⟩ := List.mem_map.mp hx
    rw [← hfx, h f hf]
    simp [AdapterResult.isRejected]
  have hmap : runWrites transcribe files =
      files.map (fun f => (pathJoin outDir (stemOf f ++ ".md"), outcome f)) := by
    rw [runWrites, hno]
    simp only [Bool.false_eq_true, if_false]
    rw [namesAndTranscripts, transcriptPromises, zip_self_map, List.filterMap_map]
    exact saveResolvedRecord_filterMap transcribe outcome files h
  exact ⟨by rw [hmap, List.length_map], hmap⟩

/-- Witness for the amended C5 theorem, at a two-file run where the first
transcription succeeds and the second resolves with a captured failure
message (a string, so it is still written). -/
theorem c5_witness :
    (runWrites c5AllStrings c5files).length = c5files.length ∧
    runWrites c5AllStrings c5files =
      c5files.map (fun f => (pathJoin outDir (stemOf f ++ ".md"), c5Outcome f)) :=
  c5_one_write_per_file_when_all_resolve_strings c5AllStrings c5Outcome c5files
    (fun _ _ => rfl)

/-- C6: the dispatched files are exactly the directory entries starting with
the limiter (case-sensitive), each prefixed with the input directory path,
and in listing order (the selection is a sublist of the full mapped
listing). -/
theorem c6_selection_is_exactly_limiter_matches (inDir limiter : String)
    (files : List String) :
    (∀ y, y ∈ filteredFiles inDir limiter files ↔
      ∃ e, e ∈ files ∧ jsStartsWith e limiter = true ∧ y = inDir ++ e) ∧
    (filteredFiles inDir limiter files).Sublist (files.map (fun e => inDir ++ e)) := by
  constructor
  · intro y
    constructor
    · intro hy
      obtain ⟨x, hx, hmap⟩ := List.mem_map.mp hy
      obtain ⟨hmem, hpred⟩ := List.mem_filter.mp hx
      exact ⟨x, hmem, hpred, hmap.symm⟩
    · rintro ⟨e, hmem, hpred, rfl⟩
      exact List.mem_map.mpr ⟨e, List.mem_filter.mpr ⟨hmem, hpred⟩, rfl⟩
  · exact List.Sublist.map _ (List.filter_sublist _)

/-- C7: the Result Writer derives the output path `out/<stem(name)>.md` as a
pure function of the input file name, writes the resolved contents (the
transcript, or on failure the captured message) as the file's entire
content, and the write overwrites whatever the file system previously held
at that path. -/
theorem c7_writer_path_contents_overwrite (name contents : String)
    (fsys : String → Option String) :
    saveTo (name, contents) = (pathJoin outDir (stemOf name ++ ".md"), contents) ∧
    applyWrite fsys (saveTo (name, contents))
      (pathJoin outDir (stemOf name ++ ".md")) = some contents ∧
    ∀ other : String, (saveTo (name, other)).1 = (saveTo (name, contents)).1 := by
  refine ⟨rfl, ?_, fun other => rfl⟩
  simp [applyWrite, saveTo]

/-- C8 counterexample: the claim requires the partitioner to skip a file with
an out-of-range grouping character with a warning, or to record a per-file
Failure — either way the run continues.  On "./in/x4file.wav" (grouping
character '4') the code instead throws a TypeError out of `reduce`, aborting
the partition: the run does not continue, so neither permitted policy is
implemented. -/
theorem c8_partition_throws_on_unexpected_key :
    partitionSucceeds ["./in/x4file.wav"] = false ∧
    batchesOf ["./in/x4file.wav"] = Except.error pushTypeError := ⟨rfl, rfl⟩

/-- C8 amended: whenever some selected file's grouping-position character is
missing or outside the pre-seeded key set {"0","1","2","3"}, the partition
step throws a TypeError and the whole run aborts; the file is neither
skipped-with-warning nor recorded as a per-file Failure (it is also not
silently dropped — nothing at all is produced). -/
theorem c8_partition_aborts_on_bad_key (l : List String)
    (h : ∃ cur, cur ∈ l ∧ goodKey7 cur = false) :
    batchesOf l = Except.error pushTypeError :=
  runPartition_error l ⟨[], [], [], []⟩ h

/-- Witness for the amended C8 theorem, at a path too short to have a
character at index 6. -/
theorem c8_witness : batchesOf ["./in/a"] = Except.error pushTypeError :=
  c8_partition_aborts_on_bad_key _ ⟨"./in/a", List.mem_singleton.mpr rfl, rfl⟩

/-- C9: when the value caught by the adapter's catch block has no `message`
property (for example a non-Error value thrown by the provider), the adapter
resolves with undefined — `ex.message` evaluates to undefined and is
returned — rather than with a non-empty failure-message string. -/
theorem c9_messageless_throw_resolves_undefined
    (readContentSync : String → Except Thrown String)
    (transcriptionClient : String → ClientReply) (fileName content : String)
    (hr : readContentSync fileName = Except.ok content)
    (hc : transcriptionClient content = ClientReply.thrown (Thrown.value ⟨none⟩)) :
    transcribeContentWithTool readContentSync transcriptionClient fileName =
      AdapterResult.resolved none := by
  simp [transcribeContentWithTool, hr, hc, catchReturnMessage]

/-- Witness for the C9 theorem, at a provider that throws a messageless
value. -/
theorem c9_witness :
    transcribeContentWithTool (fun _ => Except.ok "bytes")
      (fun _ => ClientReply.thrown (Thrown.value ⟨none⟩)) "f.wav" =
      AdapterResult.resolved none :=
  c9_messageless_throw_resolves_undefined _ _ "f.wav" "bytes" rfl rfl

/-- C10: when every input's grouping character (character 6 of the partition
input string) is one of the four pre-seeded keys, partitioning succeeds and
each of the four buckets is exactly the input filtered to its key — so every
file appears in exactly the bucket of its key, in input-relative order, the
result has exactly the four pre-seeded buckets (the `Batches` structure), and
the bucket sizes sum to the input size (no file dropped or duplicated). -/
theorem c10_partition_success_invariants (l : List String)
    (h : ∀ cur, cur ∈ l → goodKey7 cur = true) :
    batchesOf l = Except.ok
      ⟨bucketFilter '0' l, bucketFilter '1' l,
       bucketFilter '2' l, bucketFilter '3' l⟩ ∧
    (bucketFilter '0' l).length + (bucketFilter '1' l).length +
      (bucketFilter '2' l).length + (bucketFilter '3' l).length = l.length := by
  constructor
  · have hrun := runPartition_ok l ⟨[], [], [], []⟩ h
    simpa [batchesOf] using hrun
  · exact bucket_length_sum l h

/-- Witness for the C10 theorem, at a one-file input whose grouping character
is '0'. -/
theorem c10_witness :
    batchesOf ["./in/20250801_a.wav"] = Except.ok
      ⟨bucketFilter '0' ["./in/20250801_a.wav"],
       bucketFilter '1' ["./in/20250801_a.wav"],
       bucketFilter '2' ["./in/20250801_a.wav"],
       bucketFilter '3' ["./in/20250801_a.wav"]⟩ ∧
    (bucketFilter '0' ["./in/20250801_a.wav"]).length +
      (bucketFilter '1' ["./in/20250801_a.wav"]).length +
      (bucketFilter '2' ["./in/20250801_a.wav"]).length +
      (bucketFilter '3' ["./in/20250801_a.wav"]).length =
      (["./in/20250801_a.wav"] : List String).length :=
  c10_partition_success_invariants ["./in/20250801_a.wav"]
    (fun cur hcur => by rw [List.mem_singleton.mp hcur]; rfl)

end TranscribeFolder
